import Mathlib

/-!
Verification of the smartpanel input-classification engine and
device-commissioning payload codec.

The definitions below are a shallow embedding of the Python sources:
  - smartpanel_modules/matter_server.py       (commissioning codec, the variant
    used by dashboard_new.py; passcode normalization included)
  - smartpanel_modules/matter_device_real.py  (commissioning codec variant
    without passcode normalization, plus the per-instance payload caches)
  - smartpanel_modules/input_handler.py       (InputHandler)

Machine conventions: Python non-negative ints are Nat, Python signed ints are
Int, and float timestamps/durations are modeled as rationals (the claims only
exercise ordering and exact arithmetic on them).  Python strings of digits are
modeled as lists of digit values mapped to characters at the boundary.
-/

/-! ## Positional digit expansion (shared by the base-38 and decimal encoders)

Both encoders in the source are the loop
  while n > 0: s = chars[n % b] + s; n //= b
which produces the base-b digits least-significant first.  The fuel argument
makes the recursion structural; fuel n is always enough since n shrinks at
every step for b >= 2.
-/

def toBaseRevFuel (b : Nat) : Nat → Nat → List Nat
  | 0, _ => []
  | fuel+1, n => if n = 0 then [] else n % b :: toBaseRevFuel b fuel (n / b)

def toBaseRev (b n : Nat) : List Nat := toBaseRevFuel b n n

/-- Value of a least-significant-first digit list in base b. -/
def valRevB (b : Nat) (ds : List Nat) : Nat := ds.foldr (fun d a => d + b * a) 0

/-- Value of a most-significant-first digit list in base b. -/
def msbValB (b : Nat) (ds : List Nat) : Nat := ds.foldl (fun a d => a * b + d) 0

theorem toBaseRevFuel_irrel (b : Nat) (hb : 2 ≤ b) :
    ∀ fuel fuel' n, n ≤ fuel → n ≤ fuel' →
      toBaseRevFuel b fuel n = toBaseRevFuel b fuel' n := by
  intro fuel
  induction fuel with
  | zero =>
    intro fuel' n h1 _
    interval_cases n
    cases fuel' <;> simp [toBaseRevFuel]
  | succ f ih =>
    intro fuel' n h1 h2
    cases fuel' with
    | zero =>
      interval_cases n
      simp [toBaseRevFuel]
    | succ f2 =>
      simp only [toBaseRevFuel]
      by_cases hn : n = 0
      · simp [hn]
      · simp only [hn, if_false]
        have hdiv : n / b < n := Nat.div_lt_self (Nat.pos_of_ne_zero hn) hb
        have hle1 : n / b ≤ f := by omega
        have hle2 : n / b ≤ f2 := by omega
        rw [ih f2 (n / b) hle1 hle2]

theorem toBaseRev_unfold (b n : Nat) (hb : 2 ≤ b) :
    toBaseRev b n = if n = 0 then [] else n % b :: toBaseRev b (n / b) := by
  by_cases hn : n = 0
  · subst hn; simp [toBaseRev, toBaseRevFuel]
  · obtain ⟨m, rfl⟩ : ∃ m, n = m + 1 := ⟨n - 1, by omega⟩
    simp only [hn, if_false, toBaseRev, toBaseRevFuel]
    have hdiv : (m + 1) / b ≤ m := by
      have := Nat.div_lt_self (by omega : 0 < m + 1) hb
      omega
    rw [toBaseRevFuel_irrel b hb m ((m + 1) / b) ((m + 1) / b) hdiv le_rfl]

theorem valRevB_toBaseRev (b : Nat) (hb : 2 ≤ b) (n : Nat) :
    valRevB b (toBaseRev b n) = n := by
  induction n using Nat.strong_induction_on with
  | _ n ih =>
    rw [toBaseRev_unfold b n hb]
    by_cases hn : n = 0
    · simp [hn, valRevB]
    · simp only [hn, if_false, valRevB, List.foldr_cons]
      have hdiv : n / b < n := Nat.div_lt_self (Nat.pos_of_ne_zero hn) hb
      have := ih (n / b) hdiv
      simp only [valRevB] at this
      rw [this]
      exact Nat.mod_add_div n b

theorem toBaseRev_digit_lt (b : Nat) (hb : 2 ≤ b) (n : Nat) :
    ∀ d ∈ toBaseRev b n, d < b := by
  induction n using Nat.strong_induction_on with
  | _ n ih =>
    rw [toBaseRev_unfold b n hb]
    by_cases hn : n = 0
    · simp [hn]
    · simp only [hn, if_false, List.mem_cons]
      rintro d (rfl | hd)
      · exact Nat.mod_lt n (by omega)
      · exact ih (n / b) (Nat.div_lt_self (Nat.pos_of_ne_zero hn) hb) d hd

theorem toBaseRev_length_le (b : Nat) (hb : 2 ≤ b) :
    ∀ k n, n < b ^ k → (toBaseRev b n).length ≤ k := by
  intro k
  induction k with
  | zero =>
    intro n hn
    simp only [pow_zero] at hn
    interval_cases n
    simp [toBaseRev, toBaseRevFuel]
  | succ k ih =>
    intro n hn
    rw [toBaseRev_unfold b n hb]
    by_cases hn0 : n = 0
    · simp [hn0]
    · simp only [hn0, if_false, List.length_cons]
      have : n / b < b ^ k := by
        rw [Nat.div_lt_iff_lt_mul (by omega : 0 < b)]
        calc n < b ^ (k + 1) := hn
          _ = b ^ k * b := by ring
      have := ih (n / b) this
      omega

theorem msbValB_reverse (b : Nat) (ds : List Nat) :
    msbValB b ds.reverse = valRevB b ds := by
  induction ds with
  | nil => simp [msbValB, valRevB]
  | cons d rest ih =>
    simp only [List.reverse_cons, msbValB, List.foldl_append, List.foldl_cons,
      List.foldl_nil, valRevB, List.foldr_cons]
    simp only [msbValB] at ih
    simp only [valRevB] at ih
    rw [ih]
    ring

theorem msbValB_replicate_zero (b k : Nat) (ds : List Nat) :
    msbValB b (List.replicate k 0 ++ ds) = msbValB b ds := by
  induction k with
  | zero => simp
  | succ k ih =>
    simp only [List.replicate_succ, List.cons_append, msbValB, List.foldl_cons]
    simpa [msbValB] using ih

/-! ## Base-38 encoding of the QR payload

Source: matter_server.get_pairing_qr_payload, lines 299-311 (identical code in
matter_device_real.get_pairing_qr_payload, lines 226-237).
-/

def b38Chars : List Char := "0123456789ABCDEFGHIJKLMNOPQRSTUVWXYZ-.".toList

def b38Char (d : Nat) : Char := b38Chars.getD d '0'

/-- The 22-character base-38 body: most-significant digit first, left-padded
with the zero character, exactly as the while loop plus the padding loop. -/
def qrBase38Chars (n : Nat) : List Char :=
  List.replicate (22 - (toBaseRev 38 n).length) '0' ++ ((toBaseRev 38 n).reverse).map b38Char

/-- Bit-packing block of get_pairing_qr_payload (matter_server.py lines
290-297 and matter_device_real.py lines 216-223), generalized over the local
constants version, custom_flow and discovery_caps. -/
def packPayload (version vendorId productId customFlow discoveryCaps discriminator passcode : Nat) : Nat :=
  0 ||| (version &&& 0x7)
    ||| ((vendorId &&& 0xFFFF) <<< 3)
    ||| ((productId &&& 0xFFFF) <<< 19)
    ||| ((customFlow &&& 0x3) <<< 35)
    ||| ((discoveryCaps &&& 0xFF) <<< 37)
    ||| ((discriminator &&& 0xFFF) <<< 45)
    ||| ((passcode &&& 0x7FFFFFF) <<< 57)

def buildQrPayload (version vendorId productId customFlow discoveryCaps discriminator passcode : Nat) : String :=
  String.mk ('M' :: 'T' :: ':' ::
    qrBase38Chars (packPayload version vendorId productId customFlow discoveryCaps discriminator passcode))

/-- get_pairing_qr_payload: the source fixes version = 0, custom_flow = 0 and
discovery_caps = 0x05 as local constants. -/
def get_pairing_qr_payload (vendorId productId discriminator passcode : Nat) : String :=
  buildQrPayload 0 vendorId productId 0 0x05 discriminator passcode

/-! Decoding side, written from the claim: map each character back to its
index in the base-38 alphabet, fold most-significant first, and read bit
fields at the stated offsets. -/

def b38CharVal (c : Char) : Nat := b38Chars.indexOf c

def base38DecodeChars (cs : List Char) : Nat :=
  cs.foldl (fun a c => a * 38 + b38CharVal c) 0

def extractBits (n off w : Nat) : Nat := (n >>> off) % 2 ^ w

/-! ## Bit-level facts about the packed payload -/

theorem lor_shiftLeft_eq_add {a b k : Nat} (h : a < 2 ^ k) :
    a ||| (b <<< k) = a + b * 2 ^ k := by
  apply Nat.eq_of_testBit_eq
  intro i
  rw [Nat.testBit_lor, Nat.testBit_shiftLeft]
  rcases Nat.lt_or_ge i k with hik | hik
  · have hmod : (a + b * 2 ^ k) % 2 ^ k = a % 2 ^ k := Nat.add_mul_mod_self_right a b (2 ^ k)
    have h1 : (a + b * 2 ^ k).testBit i = a.testBit i := by
      have e1 := Nat.testBit_mod_two_pow (a + b * 2 ^ k) k i
      have e2 := Nat.testBit_mod_two_pow a k i
      rw [hmod, e2] at e1
      simpa [hik] using e1.symm
    rw [h1]
    simp [Nat.not_le.2 hik]
  · have ha : a.testBit i = false :=
      Nat.testBit_lt_two_pow (lt_of_lt_of_le h (Nat.pow_le_pow_right (by norm_num) hik))
    have hdiv : (a + b * 2 ^ k) >>> k = b := by
      rw [Nat.shiftRight_eq_div_pow, Nat.add_mul_div_right _ _ (Nat.two_pow_pos k),
        Nat.div_eq_of_lt h]
      omega
    have h2 : (a + b * 2 ^ k).testBit i = b.testBit (i - k) := by
      have e := Nat.testBit_shiftRight (a + b * 2 ^ k) (i := k) (j := i - k)
      rw [hdiv] at e
      rw [e]
      congr 1
      omega
    rw [h2, ha]
    simp [hik]

theorem mask_eq_of_lt {x w : Nat} (h : x < 2 ^ w) : x &&& (2 ^ w - 1) = x :=
  Nat.and_pow_two_sub_one_of_lt_two_pow h

/-- Under the field-range hypotheses the packed payload is the plain
mixed-radix sum of the fields at their bit offsets. -/
theorem packPayload_eq_sum (v a p c dc d pc : Nat)
    (hv : v < 8) (ha : a < 65536) (hp : p < 65536) (hc : c < 4)
    (hdc : dc < 256) (hd : d < 4096) (hpc : pc < 134217728) :
    packPayload v a p c dc d pc =
      v + a * 2 ^ 3 + p * 2 ^ 19 + c * 2 ^ 35 + dc * 2 ^ 37 + d * 2 ^ 45 + pc * 2 ^ 57 := by
  unfold packPayload
  have mv : v &&& 0x7 = v := by
    have : (0x7 : Nat) = 2 ^ 3 - 1 := by norm_num
    rw [this]; exact mask_eq_of_lt (by norm_num at hv ⊢; omega)
  have m16a : a &&& 0xFFFF = a := by
    have : (0xFFFF : Nat) = 2 ^ 16 - 1 := by norm_num
    rw [this]; exact mask_eq_of_lt (by norm_num; omega)
  have m16p : p &&& 0xFFFF = p := by
    have : (0xFFFF : Nat) = 2 ^ 16 - 1 := by norm_num
    rw [this]; exact mask_eq_of_lt (by norm_num; omega)
  have mc : c &&& 0x3 = c := by
    have : (0x3 : Nat) = 2 ^ 2 - 1 := by norm_num
    rw [this]; exact mask_eq_of_lt (by norm_num; omega)
  have mdc : dc &&& 0xFF = dc := by
    have : (0xFF : Nat) = 2 ^ 8 - 1 := by norm_num
    rw [this]; exact mask_eq_of_lt (by norm_num; omega)
  have md : d &&& 0xFFF = d := by
    have : (0xFFF : Nat) = 2 ^ 12 - 1 := by norm_num
    rw [this]; exact mask_eq_of_lt (by norm_num; omega)
  have mpc : pc &&& 0x7FFFFFF = pc := by
    have : (0x7FFFFFF : Nat) = 2 ^ 27 - 1 := by norm_num
    rw [this]; exact mask_eq_of_lt (by norm_num; omega)
  rw [mv, m16a, m16p, mc, mdc, md, mpc, Nat.zero_or]
  rw [lor_shiftLeft_eq_add (show v < 2 ^ 3 by norm_num; omega)]
  rw [lor_shiftLeft_eq_add (show v + a * 2 ^ 3 < 2 ^ 19 by norm_num; omega)]
  rw [lor_shiftLeft_eq_add (show v + a * 2 ^ 3 + p * 2 ^ 19 < 2 ^ 35 by norm_num; omega)]
  rw [lor_shiftLeft_eq_add
    (show v + a * 2 ^ 3 + p * 2 ^ 19 + c * 2 ^ 35 < 2 ^ 37 by norm_num; omega)]
  rw [lor_shiftLeft_eq_add
    (show v + a * 2 ^ 3 + p * 2 ^ 19 + c * 2 ^ 35 + dc * 2 ^ 37 < 2 ^ 45 by norm_num; omega)]
  rw [lor_shiftLeft_eq_add
    (show v + a * 2 ^ 3 + p * 2 ^ 19 + c * 2 ^ 35 + dc * 2 ^ 37 + d * 2 ^ 45 < 2 ^ 57 by
      norm_num; omega)]

theorem extractBits_add (low f high off w : Nat) (hlow : low < 2 ^ off) (hf : f < 2 ^ w) :
    extractBits (low + 2 ^ off * (f + 2 ^ w * high)) off w = f := by
  unfold extractBits
  rw [Nat.shiftRight_eq_div_pow,
    Nat.add_mul_div_left _ _ (Nat.two_pow_pos off),
    Nat.div_eq_of_lt hlow, Nat.zero_add,
    Nat.add_mul_mod_self_left, Nat.mod_eq_of_lt hf]

/-! ## Base-38 decode of the encode -/

theorem b38CharVal_b38Char : ∀ d : Fin 38, b38CharVal (b38Char d.val) = d.val := by
  decide

theorem base38DecodeChars_foldl (ds : List Nat) (hds : ∀ d ∈ ds, d < 38) (a : Nat) :
    List.foldl (fun acc c => acc * 38 + b38CharVal c) a (ds.map b38Char) =
      List.foldl (fun acc d => acc * 38 + d) a ds := by
  induction ds generalizing a with
  | nil => simp
  | cons d rest ih =>
    simp only [List.map_cons, List.foldl_cons]
    have hd : d < 38 := hds d (by simp)
    have hv : b38CharVal (b38Char d) = d := b38CharVal_b38Char ⟨d, hd⟩
    rw [hv]
    exact ih (fun x hx => hds x (by simp [hx])) _

theorem base38DecodeChars_map (ds : List Nat) (hds : ∀ d ∈ ds, d < 38) :
    base38DecodeChars (ds.map b38Char) = msbValB 38 ds :=
  base38DecodeChars_foldl ds hds 0

/-- Decoding the padded 22-character body gives back the payload integer, and
the body has exactly 22 characters. -/
theorem qrBase38_decode (n : Nat) (hn : n < 38 ^ 22) :
    base38DecodeChars (qrBase38Chars n) = n ∧ (qrBase38Chars n).length = 22 := by
  have hlen : (toBaseRev 38 n).length ≤ 22 := toBaseRev_length_le 38 (by norm_num) 22 n hn
  have hdig : ∀ d ∈ (toBaseRev 38 n).reverse, d < 38 := by
    intro d hd
    exact toBaseRev_digit_lt 38 (by norm_num) n d (List.mem_reverse.mp hd)
  constructor
  · unfold qrBase38Chars
    have hzc : ('0' : Char) = b38Char 0 := by decide
    rw [hzc, ← List.map_replicate (f := b38Char), ← List.map_append, base38DecodeChars_map]
    · rw [msbValB_replicate_zero, msbValB_reverse]
      exact valRevB_toBaseRev 38 (by norm_num) n
    · intro d hd
      rcases List.mem_append.mp hd with h | h
      · have := List.eq_of_mem_replicate h
        omega
      · exact hdig d h
  · unfold qrBase38Chars
    simp only [List.length_append, List.length_replicate, List.length_map,
      List.length_reverse]
    omega

/-- Claim C1: for every identity whose fields are in range (vendorId,
productId below 2^16, discriminator below 2^12, passcode below 2^27,
discoveryCapabilities below 2^8, customFlow below 4, version below 8 — in
particular the fixed version 0), decoding the 22-character base-38 body of
the string returned after the MT: prefix and extracting the bit fields at
offsets 0/3/19/35/37/45/57 of widths 3/16/16/2/8/12/27 reproduces every
input field exactly. -/
theorem qr_payload_roundtrip (v a p c dc d pc : Nat)
    (hv : v < 8) (ha : a < 65536) (hp : p < 65536) (hc : c < 4)
    (hdc : dc < 256) (hd : d < 4096) (hpc : pc < 134217728) :
    ∃ body : List Char,
      buildQrPayload v a p c dc d pc = String.mk ('M' :: 'T' :: ':' :: body) ∧
      body.length = 22 ∧
      extractBits (base38DecodeChars body) 0 3 = v ∧
      extractBits (base38DecodeChars body) 3 16 = a ∧
      extractBits (base38DecodeChars body) 19 16 = p ∧
      extractBits (base38DecodeChars body) 35 2 = c ∧
      extractBits (base38DecodeChars body) 37 8 = dc ∧
      extractBits (base38DecodeChars body) 45 12 = d ∧
      extractBits (base38DecodeChars body) 57 27 = pc := by
  have hsum := packPayload_eq_sum v a p c dc d pc hv ha hp hc hdc hd hpc
  have hbound : packPayload v a p c dc d pc < 38 ^ 22 := by
    have h1 : packPayload v a p c dc d pc < 2 ^ 84 := by
      rw [hsum]; norm_num; omega
    exact lt_trans h1 (by norm_num)
  obtain ⟨hdec, hlen⟩ := qrBase38_decode _ hbound
  refine ⟨qrBase38Chars (packPayload v a p c dc d pc), rfl, hlen, ?_, ?_, ?_, ?_, ?_, ?_, ?_⟩
  · have e : v + a * 2 ^ 3 + p * 2 ^ 19 + c * 2 ^ 35 + dc * 2 ^ 37 + d * 2 ^ 45 + pc * 2 ^ 57 =
        0 + 2 ^ 0 * (v + 2 ^ 3 * (a + 2 ^ 16 * (p + 2 ^ 16 * (c + 2 ^ 2 * (dc + 2 ^ 8 * (d + 2 ^ 12 * pc)))))) := by
      ring
    rw [hdec, hsum, e]
    exact extractBits_add _ _ _ _ _ (by norm_num) (by norm_num; omega)
  · have e : v + a * 2 ^ 3 + p * 2 ^ 19 + c * 2 ^ 35 + dc * 2 ^ 37 + d * 2 ^ 45 + pc * 2 ^ 57 =
        v + 2 ^ 3 * (a + 2 ^ 16 * (p + 2 ^ 16 * (c + 2 ^ 2 * (dc + 2 ^ 8 * (d + 2 ^ 12 * pc))))) := by
      ring
    rw [hdec, hsum, e]
    exact extractBits_add _ _ _ _ _ (by norm_num; omega) (by norm_num; omega)
  · have e : v + a * 2 ^ 3 + p * 2 ^ 19 + c * 2 ^ 35 + dc * 2 ^ 37 + d * 2 ^ 45 + pc * 2 ^ 57 =
        (v + a * 2 ^ 3) + 2 ^ 19 * (p + 2 ^ 16 * (c + 2 ^ 2 * (dc + 2 ^ 8 * (d + 2 ^ 12 * pc)))) := by
      ring
    rw [hdec, hsum, e]
    exact extractBits_add _ _ _ _ _ (by norm_num; omega) (by norm_num; omega)
  · have e : v + a * 2 ^ 3 + p * 2 ^ 19 + c * 2 ^ 35 + dc * 2 ^ 37 + d * 2 ^ 45 + pc * 2 ^ 57 =
        (v + a * 2 ^ 3 + p * 2 ^ 19) + 2 ^ 35 * (c + 2 ^ 2 * (dc + 2 ^ 8 * (d + 2 ^ 12 * pc))) := by
      ring
    rw [hdec, hsum, e]
    exact extractBits_add _ _ _ _ _ (by norm_num; omega) (by norm_num; omega)
  · have e : v + a * 2 ^ 3 + p * 2 ^ 19 + c * 2 ^ 35 + dc * 2 ^ 37 + d * 2 ^ 45 + pc * 2 ^ 57 =
        (v + a * 2 ^ 3 + p * 2 ^ 19 + c * 2 ^ 35) + 2 ^ 37 * (dc + 2 ^ 8 * (d + 2 ^ 12 * pc)) := by
      ring
    rw [hdec, hsum, e]
    exact extractBits_add _ _ _ _ _ (by norm_num; omega) (by norm_num; omega)
  · have e : v + a * 2 ^ 3 + p * 2 ^ 19 + c * 2 ^ 35 + dc * 2 ^ 37 + d * 2 ^ 45 + pc * 2 ^ 57 =
        (v + a * 2 ^ 3 + p * 2 ^ 19 + c * 2 ^ 35 + dc * 2 ^ 37) + 2 ^ 45 * (d + 2 ^ 12 * pc) := by
      ring
    rw [hdec, hsum, e]
    exact extractBits_add _ _ _ _ _ (by norm_num; omega) (by norm_num; omega)
  · have e : v + a * 2 ^ 3 + p * 2 ^ 19 + c * 2 ^ 35 + dc * 2 ^ 37 + d * 2 ^ 45 + pc * 2 ^ 57 =
        (v + a * 2 ^ 3 + p * 2 ^ 19 + c * 2 ^ 35 + dc * 2 ^ 37 + d * 2 ^ 45) + 2 ^ 57 * (pc + 2 ^ 27 * 0) := by
      ring
    rw [hdec, hsum, e]
    exact extractBits_add _ _ _ _ _ (by norm_num; omega) (by norm_num; omega)

/-- Witness for C1 at the device defaults: vendor 0xFFF4, product 0x8000,
discriminator 3840, passcode 20202021, customFlow 0, discoveryCaps 5,
version 0. -/
theorem qr_payload_roundtrip_witness :
    (0 : Nat) < 8 ∧ (65524 : Nat) < 65536 ∧ (32768 : Nat) < 65536 ∧ (0 : Nat) < 4 ∧
    (5 : Nat) < 256 ∧ (3840 : Nat) < 4096 ∧ (20202021 : Nat) < 134217728 ∧
    (∃ body : List Char,
      buildQrPayload 0 65524 32768 0 5 3840 20202021 = String.mk ('M' :: 'T' :: ':' :: body) ∧
      body.length = 22 ∧
      extractBits (base38DecodeChars body) 0 3 = 0 ∧
      extractBits (base38DecodeChars body) 3 16 = 65524 ∧
      extractBits (base38DecodeChars body) 19 16 = 32768 ∧
      extractBits (base38DecodeChars body) 35 2 = 0 ∧
      extractBits (base38DecodeChars body) 37 8 = 5 ∧
      extractBits (base38DecodeChars body) 45 12 = 3840 ∧
      extractBits (base38DecodeChars body) 57 27 = 20202021) :=
  ⟨by norm_num, by norm_num, by norm_num, by norm_num, by norm_num, by norm_num, by norm_num,
    qr_payload_roundtrip 0 65524 32768 0 5 3840 20202021 (by norm_num) (by norm_num)
      (by norm_num) (by norm_num) (by norm_num) (by norm_num) (by norm_num)⟩

/-! ## Manual pairing code

Source: matter_server.get_manual_pairing_code (lines 321-370) and
matter_server._calculate_verhoeff (lines 372-409); matter_device_real has the
same Verhoeff code but its get_manual_pairing_code (lines 243-262) skips the
passcode normalization.  Python decimal strings are modeled as digit lists
(pyStrNat is str(n), fmtPad w n is the zero-padding f-string of width w),
mapped to characters at the end.
-/

def pyStrNat (n : Nat) : List Nat := if n = 0 then [0] else (toBaseRev 10 n).reverse

def zfill (w : Nat) (ds : List Nat) : List Nat := List.replicate (w - ds.length) 0 ++ ds

def fmtPad (w n : Nat) : List Nat := zfill w (pyStrNat n)

def digitChar (d : Nat) : Char := Char.ofNat (48 + d)

def verhoeffTableD : List (List Nat) :=
  [[0, 1, 2, 3, 4, 5, 6, 7, 8, 9],
   [1, 2, 3, 4, 0, 6, 7, 8, 9, 5],
   [2, 3, 4, 0, 1, 7, 8, 9, 5, 6],
   [3, 4, 0, 1, 2, 8, 9, 5, 6, 7],
   [4, 0, 1, 2, 3, 9, 5, 6, 7, 8],
   [5, 9, 8, 7, 6, 0, 4, 3, 2, 1],
   [6, 5, 9, 8, 7, 1, 0, 4, 3, 2],
   [7, 6, 5, 9, 8, 2, 1, 0, 4, 3],
   [8, 7, 6, 5, 9, 3, 2, 1, 0, 4],
   [9, 8, 7, 6, 5, 4, 3, 2, 1, 0]]

def verhoeffTableP : List (List Nat) :=
  [[0, 1, 2, 3, 4, 5, 6, 7, 8, 9],
   [1, 5, 7, 6, 2, 8, 3, 0, 9, 4],
   [5, 8, 0, 3, 7, 9, 6, 1, 4, 2],
   [8, 9, 1, 6, 0, 4, 3, 5, 2, 7],
   [9, 4, 5, 3, 1, 2, 6, 8, 7, 0],
   [4, 2, 8, 6, 5, 7, 3, 9, 0, 1],
   [2, 7, 9, 3, 8, 0, 6, 4, 1, 5],
   [7, 0, 4, 6, 9, 1, 3, 2, 5, 8]]

def verhoeffTableInv : List Nat := [0, 4, 3, 2, 1, 5, 6, 7, 8, 9]

def tableAt (t : List (List Nat)) (i j : Nat) : Nat := (t.getD i []).getD j 0

/-- The loop `for i, digit in enumerate(reversed(num_str)): c = d[c][p[(i+1)%8][digit]]`. -/
def verhoeffLoop : Nat → Nat → List Nat → Nat
  | c, _, [] => c
  | c, i, dg :: rest =>
    verhoeffLoop (tableAt verhoeffTableD c (tableAt verhoeffTableP ((i + 1) % 8) dg)) (i + 1) rest

def calculate_verhoeff (ds : List Nat) : Nat :=
  verhoeffTableInv.getD (verhoeffLoop 0 0 ds.reverse) 0

/-- Passcode normalization block of matter_server.get_manual_pairing_code
(lines 343-351). -/
def passcodeNormalize (p : Nat) : Nat :=
  let p1 := if p = 0 then 20202021 else p
  let p2 := if p1 > 99999999 then p1 % 99999999 else p1
  if p2 = 0 then 20202021 else p2

def manualCodeDigits (disc pin : Nat) : List Nat := fmtPad 4 disc ++ fmtPad 8 pin

/-- The slicing `full_code[0:4] + "-" + full_code[4:8] + "-" + full_code[8:13]`. -/
def groupManualCode (full : List Nat) : List Char :=
  (full.take 4).map digitChar ++ '-' ::
    ((full.drop 4).take 4).map digitChar ++ '-' ::
    ((full.drop 8).take 5).map digitChar

/-- matter_server.get_manual_pairing_code as a function of the configured
discriminator and setup pin. -/
def get_manual_pairing_code (disc pin : Nat) : String :=
  String.mk (groupManualCode
    (manualCodeDigits disc (passcodeNormalize pin) ++
      [calculate_verhoeff (manualCodeDigits disc (passcodeNormalize pin))]))

/-- MatterButtonDevice.get_manual_pairing_code: identical except that the
setup pin is formatted directly, with no normalization. -/
def deviceRealManualPairingCode (disc pin : Nat) : String :=
  String.mk (groupManualCode
    (manualCodeDigits disc pin ++ [calculate_verhoeff (manualCodeDigits disc pin)]))

/-! Supporting facts about decimal formatting. -/

theorem pyStrNat_length_le (w n : Nat) (hw : 1 ≤ w) (hn : n < 10 ^ w) :
    (pyStrNat n).length ≤ w := by
  unfold pyStrNat
  by_cases h : n = 0
  · simp [h]; omega
  · simp only [h, if_false, List.length_reverse]
    exact toBaseRev_length_le 10 (by norm_num) w n hn

theorem fmtPad_length (w n : Nat) (hw : 1 ≤ w) (hn : n < 10 ^ w) :
    (fmtPad w n).length = w := by
  have := pyStrNat_length_le w n hw hn
  unfold fmtPad zfill
  simp only [List.length_append, List.length_replicate]
  omega

theorem pyStrNat_digit_lt (n : Nat) : ∀ x ∈ pyStrNat n, x < 10 := by
  unfold pyStrNat
  by_cases h : n = 0
  · simp [h]
  · simp only [h, if_false]
    intro x hx
    exact toBaseRev_digit_lt 10 (by norm_num) n x (List.mem_reverse.mp hx)

theorem fmtPad_digit_lt (w n : Nat) : ∀ x ∈ fmtPad w n, x < 10 := by
  unfold fmtPad zfill
  intro x hx
  rcases List.mem_append.mp hx with h | h
  · have := List.eq_of_mem_replicate h
    omega
  · exact pyStrNat_digit_lt n x h

theorem verhoeffInv_getD_lt (x : Nat) : verhoeffTableInv.getD x 0 < 10 := by
  unfold verhoeffTableInv
  rcases x with _|_|_|_|_|_|_|_|_|_|x <;> simp [List.getD]

theorem calculate_verhoeff_lt (ds : List Nat) : calculate_verhoeff ds < 10 :=
  verhoeffInv_getD_lt _

theorem passcodeNormalize_id (p : Nat) (hp1 : 1 ≤ p) (hp2 : p ≤ 99999999) :
    passcodeNormalize p = p := by
  unfold passcodeNormalize
  have h0 : ¬ (p = 0) := by omega
  have h1 : ¬ (p > 99999999) := by omega
  simp [h0, h1]

theorem passcodeNormalize_zero_case (p : Nat) (h : p = 0) : passcodeNormalize p = 20202021 := by
  subst h; decide

theorem passcodeNormalize_mod_case (p : Nat) (h1 : 99999999 < p) (h2 : p % 99999999 ≠ 0) :
    passcodeNormalize p = p % 99999999 := by
  unfold passcodeNormalize
  have h0 : ¬ (p = 0) := by omega
  simp [h0, h1, h2]

theorem passcodeNormalize_mod_zero_case (p : Nat) (h1 : 99999999 < p) (h2 : p % 99999999 = 0) :
    passcodeNormalize p = 20202021 := by
  unfold passcodeNormalize
  have h0 : ¬ (p = 0) := by omega
  simp [h0, h1, h2]

theorem passcodeNormalize_range (p : Nat) :
    1 ≤ passcodeNormalize p ∧ passcodeNormalize p ≤ 99999999 := by
  by_cases h0 : p = 0
  · rw [passcodeNormalize_zero_case p h0]; norm_num
  · by_cases h1 : 99999999 < p
    · by_cases h2 : p % 99999999 = 0
      · rw [passcodeNormalize_mod_zero_case p h1 h2]; norm_num
      · rw [passcodeNormalize_mod_case p h1 h2]
        have := Nat.mod_lt p (show 0 < 99999999 by norm_num)
        omega
    · rw [passcodeNormalize_id p (by omega) (by omega)]
      omega

theorem passcodeNormalize_idem (p : Nat) :
    passcodeNormalize (passcodeNormalize p) = passcodeNormalize p :=
  passcodeNormalize_id _ (passcodeNormalize_range p).1 (passcodeNormalize_range p).2

/-- Claim C2: for a discriminator in [0, 4095] and passcode in [1, 99999999]
the manual pairing code is the 4-4-5 hyphen-grouped string whose first twelve
digits are the zero-padded discriminator followed by the zero-padded
passcode, and whose final digit is the Verhoeff check digit of those twelve
digits (calculate_verhoeff is the table iteration of the source, identical
to the claim's description). -/
theorem manual_code_layout (d p : Nat) (hd : d ≤ 4095) (hp1 : 1 ≤ p) (hp2 : p ≤ 99999999) :
    get_manual_pairing_code d p =
      String.mk ((fmtPad 4 d).map digitChar ++ '-' ::
        ((fmtPad 8 p).take 4).map digitChar ++ '-' ::
        (((fmtPad 8 p).drop 4).map digitChar ++
          [digitChar (calculate_verhoeff (fmtPad 4 d ++ fmtPad 8 p))])) ∧
    (fmtPad 4 d).length = 4 ∧
    (fmtPad 8 p).length = 8 ∧
    (∀ x ∈ fmtPad 4 d ++ fmtPad 8 p, x < 10) ∧
    calculate_verhoeff (fmtPad 4 d ++ fmtPad 8 p) < 10 := by
  have hlen4 : (fmtPad 4 d).length = 4 := fmtPad_length 4 d (by norm_num) (by norm_num; omega)
  have hlen8 : (fmtPad 8 p).length = 8 := fmtPad_length 8 p (by norm_num) (by norm_num; omega)
  have hn : passcodeNormalize p = p := passcodeNormalize_id p hp1 hp2
  refine ⟨?_, hlen4, hlen8, ?_, calculate_verhoeff_lt _⟩
  · unfold get_manual_pairing_code manualCodeDigits groupManualCode
    rw [hn]
    set c := calculate_verhoeff (fmtPad 4 d ++ fmtPad 8 p) with hc
    have ht4 : ((fmtPad 4 d ++ fmtPad 8 p) ++ [c]).take 4 = fmtPad 4 d := by
      rw [List.append_assoc]
      exact List.take_left' hlen4
    have hdp4 : ((fmtPad 4 d ++ fmtPad 8 p) ++ [c]).drop 4 = fmtPad 8 p ++ [c] := by
      rw [List.append_assoc]
      exact List.drop_left' hlen4
    have ht44 : (fmtPad 8 p ++ [c]).take 4 = (fmtPad 8 p).take 4 := by
      rw [List.take_append_eq_append_take, hlen8]
      norm_num
    have hdp8 : ((fmtPad 4 d ++ fmtPad 8 p) ++ [c]).drop 8 = (fmtPad 8 p).drop 4 ++ [c] := by
      rw [List.drop_append_eq_append_drop, List.drop_append_eq_append_drop]
      rw [List.drop_eq_nil_of_le (by omega)]
      simp [hlen4, hlen8]
    have ht5 : ((fmtPad 8 p).drop 4 ++ [c]).take 5 = (fmtPad 8 p).drop 4 ++ [c] := by
      apply List.take_of_length_le
      simp [hlen8]
    rw [ht4, hdp4, ht44, hdp8, ht5]
    simp [List.map_append]
  · intro x hx
    rcases List.mem_append.mp hx with h | h
    · exact fmtPad_digit_lt 4 d x h
    · exact fmtPad_digit_lt 8 p x h

/-- Witness for C2 at the device defaults discriminator 3840, passcode
20202021. -/
theorem manual_code_layout_witness :
    (3840 : Nat) ≤ 4095 ∧ (1 : Nat) ≤ 20202021 ∧ (20202021 : Nat) ≤ 99999999 ∧
    (get_manual_pairing_code 3840 20202021 =
      String.mk ((fmtPad 4 3840).map digitChar ++ '-' ::
        ((fmtPad 8 20202021).take 4).map digitChar ++ '-' ::
        (((fmtPad 8 20202021).drop 4).map digitChar ++
          [digitChar (calculate_verhoeff (fmtPad 4 3840 ++ fmtPad 8 20202021))])) ∧
      (fmtPad 4 3840).length = 4 ∧
      (fmtPad 8 20202021).length = 8 ∧
      (∀ x ∈ fmtPad 4 3840 ++ fmtPad 8 20202021, x < 10) ∧
      calculate_verhoeff (fmtPad 4 3840 ++ fmtPad 8 20202021) < 10) :=
  ⟨by norm_num, by norm_num, by norm_num,
    manual_code_layout 3840 20202021 (by norm_num) (by norm_num) (by norm_num)⟩

/-- Claim C4 (amended): in the matter_server implementation the configured
passcode is always normalized into [1, 99999999] — 0 becomes the fixed
default 20202021, values above 99999999 are reduced mod 99999999, and a zero
reduction becomes the default again — and the produced code is always the
well-formed hyphen-grouped string of 13 digits (15 characters).  The
MatterButtonDevice implementation performs no normalization; see the
counterexample theorem. -/
theorem manual_code_always_valid (d p : Nat) (hd : d ≤ 4095) :
    1 ≤ passcodeNormalize p ∧ passcodeNormalize p ≤ 99999999 ∧
    (p = 0 → passcodeNormalize p = 20202021) ∧
    (99999999 < p → p % 99999999 ≠ 0 → passcodeNormalize p = p % 99999999) ∧
    (99999999 < p → p % 99999999 = 0 → passcodeNormalize p = 20202021) ∧
    get_manual_pairing_code d p = get_manual_pairing_code d (passcodeNormalize p) ∧
    (get_manual_pairing_code d p).length = 15 := by
  obtain ⟨hr1, hr2⟩ := passcodeNormalize_range p
  have hlen4 : (fmtPad 4 d).length = 4 := fmtPad_length 4 d (by norm_num) (by norm_num; omega)
  have hlen8 : (fmtPad 8 (passcodeNormalize p)).length = 8 :=
    fmtPad_length 8 _ (by norm_num) (by norm_num; omega)
  refine ⟨hr1, hr2, fun h => passcodeNormalize_zero_case p h,
    fun h1 h2 => passcodeNormalize_mod_case p h1 h2,
    fun h1 h2 => passcodeNormalize_mod_zero_case p h1 h2, ?_, ?_⟩
  · unfold get_manual_pairing_code
    rw [passcodeNormalize_idem]
  · unfold get_manual_pairing_code groupManualCode manualCodeDigits
    simp only [String.length, List.length_append, List.length_cons, List.length_map,
      List.length_take, List.length_drop, hlen4, hlen8, List.length_singleton]
    omega

/-- Witness for C4 (amended) at discriminator 3840 and configured passcode 0. -/
theorem manual_code_always_valid_witness :
    (3840 : Nat) ≤ 4095 ∧
    (1 ≤ passcodeNormalize 0 ∧ passcodeNormalize 0 ≤ 99999999 ∧
      ((0 : Nat) = 0 → passcodeNormalize 0 = 20202021) ∧
      ((99999999 : Nat) < 0 → 0 % 99999999 ≠ 0 → passcodeNormalize 0 = 0 % 99999999) ∧
      ((99999999 : Nat) < 0 → 0 % 99999999 = 0 → passcodeNormalize 0 = 20202021) ∧
      get_manual_pairing_code 3840 0 = get_manual_pairing_code 3840 (passcodeNormalize 0) ∧
      (get_manual_pairing_code 3840 0).length = 15) :=
  ⟨by norm_num, manual_code_always_valid 3840 0 (by norm_num)⟩

/-- Counterexample for C4 as stated: the MatterButtonDevice variant of
get_manual_pairing_code does no normalization, so a configured passcode of 0
yields the digits 00000000 in the passcode field instead of the safe
default, unlike the matter_server variant. -/
theorem manual_code_no_normalization_cex :
    deviceRealManualPairingCode 3840 0 = "3840-0000-00007" ∧
    get_manual_pairing_code 3840 0 = "3840-2020-20214" ∧
    deviceRealManualPairingCode 3840 0 ≠ get_manual_pairing_code 3840 0 := by
  exact ⟨by decide, by decide, by decide⟩

/-! ## Per-instance payload caches

Source: matter_device_real.MatterButtonDevice (fields _qr_cache and
_manual_cache, set in get_pairing_qr_payload / get_manual_pairing_code and
never cleared anywhere in the class; matter_server.MatterServer has the same
cache pattern).  The Python guard `if self._qr_cache:` on a cache that only
ever holds a generated (non-empty) payload string is modeled as an Option
test. -/

structure MatterDeviceState where
  vendorId : Nat
  productId : Nat
  discriminator : Nat
  setupPin : Nat
  qrCache : Option String
  manualCache : Option String

def devGetPairingQrPayload (s : MatterDeviceState) : String × MatterDeviceState :=
  match s.qrCache with
  | some q => (q, s)
  | none =>
    let q := get_pairing_qr_payload s.vendorId s.productId s.discriminator s.setupPin
    (q, { s with qrCache := some q })

def devGetManualPairingCode (s : MatterDeviceState) : String × MatterDeviceState :=
  match s.manualCache with
  | some q => (q, s)
  | none =>
    let q := get_manual_pairing_code s.discriminator s.setupPin
    (q, { s with manualCache := some q })

/-- Counterexample for C9 as stated: after the QR payload has been produced
once, changing the identity (discriminator 3840 to 100) does not invalidate
the cache — the next call returns the stale payload, not the payload derived
from the new identity. -/
theorem payload_cache_stale_cex :
    (devGetPairingQrPayload
      { vendorId := 65524, productId := 32768, discriminator := 100, setupPin := 20202021,
        qrCache :=
          (devGetPairingQrPayload
            { vendorId := 65524, productId := 32768, discriminator := 3840,
              setupPin := 20202021, qrCache := none, manualCache := none }).2.qrCache,
        manualCache := none }).1 = "MT:0000005WF77J6U32IR2QCG" ∧
    get_pairing_qr_payload 65524 32768 100 20202021 = "MT:0000005WF76-8C9FDWVBIW" ∧
    (devGetPairingQrPayload
      { vendorId := 65524, productId := 32768, discriminator := 100, setupPin := 20202021,
        qrCache :=
          (devGetPairingQrPayload
            { vendorId := 65524, productId := 32768, discriminator := 3840,
              setupPin := 20202021, qrCache := none, manualCache := none }).2.qrCache,
        manualCache := none }).1 ≠
      get_pairing_qr_payload 65524 32768 100 20202021 := by
  exact ⟨by decide, by decide, by decide⟩

/-- Claim C9 (amended): both payloads are memoized per instance — a repeated
call returns the identical cached string without recomputation and the
underlying strings are functions of the identity fields only — but the cache
is never invalidated: after any identity-field change a subsequent call
still returns the previously cached (stale) string. -/
theorem payload_cache_memoized (s : MatterDeviceState) :
    (s.qrCache = none →
      devGetPairingQrPayload s =
        (get_pairing_qr_payload s.vendorId s.productId s.discriminator s.setupPin,
          { s with
            qrCache := some (get_pairing_qr_payload s.vendorId s.productId s.discriminator s.setupPin) })) ∧
    (devGetPairingQrPayload (devGetPairingQrPayload s).2 = devGetPairingQrPayload ((devGetPairingQrPayload s).2) ∧
      (devGetPairingQrPayload (devGetPairingQrPayload s).2).1 = (devGetPairingQrPayload s).1 ∧
      (devGetPairingQrPayload (devGetPairingQrPayload s).2).2 = (devGetPairingQrPayload s).2) ∧
    (∀ q d, s.qrCache = some q →
      (devGetPairingQrPayload { s with discriminator := d }).1 = q) ∧
    (s.manualCache = none →
      devGetManualPairingCode s =
        (get_manual_pairing_code s.discriminator s.setupPin,
          { s with manualCache := some (get_manual_pairing_code s.discriminator s.setupPin) })) ∧
    (devGetManualPairingCode (devGetManualPairingCode s).2).1 = (devGetManualPairingCode s).1 ∧
    (∀ q d, s.manualCache = some q →
      (devGetManualPairingCode { s with discriminator := d }).1 = q) := by
  obtain ⟨vid, pid, disc, pin, qc, mc⟩ := s
  refine ⟨?_, ?_, ?_, ?_, ?_, ?_⟩
  · intro h
    simp only at h
    subst h
    rfl
  · cases qc <;> simp [devGetPairingQrPayload]
  · intro q d h
    simp only at h
    subst h
    rfl
  · intro h
    simp only at h
    subst h
    rfl
  · cases mc <;> simp [devGetManualPairingCode]
  · intro q d h
    simp only at h
    subst h
    rfl

/-- Witness for C9 (amended) at the device defaults with an empty cache. -/
theorem payload_cache_memoized_witness :
    ((none : Option String) = none →
      devGetPairingQrPayload
          { vendorId := 65524, productId := 32768, discriminator := 3840,
            setupPin := 20202021, qrCache := none, manualCache := none } =
        (get_pairing_qr_payload 65524 32768 3840 20202021,
          { vendorId := 65524, productId := 32768, discriminator := 3840,
            setupPin := 20202021,
            qrCache := some (get_pairing_qr_payload 65524 32768 3840 20202021),
            manualCache := none })) ∧
    (devGetPairingQrPayload
        (devGetPairingQrPayload
          { vendorId := 65524, productId := 32768, discriminator := 3840,
            setupPin := 20202021, qrCache := none, manualCache := none }).2 =
      devGetPairingQrPayload
        ((devGetPairingQrPayload
          { vendorId := 65524, productId := 32768, discriminator := 3840,
            setupPin := 20202021, qrCache := none, manualCache := none }).2) ∧
      (devGetPairingQrPayload
        (devGetPairingQrPayload
          { vendorId := 65524, productId := 32768, discriminator := 3840,
            setupPin := 20202021, qrCache := none, manualCache := none }).2).1 =
        (devGetPairingQrPayload
          { vendorId := 65524, productId := 32768, discriminator := 3840,
            setupPin := 20202021, qrCache := none, manualCache := none }).1 ∧
      (devGetPairingQrPayload
        (devGetPairingQrPayload
          { vendorId := 65524, productId := 32768, discriminator := 3840,
            setupPin := 20202021, qrCache := none, manualCache := none }).2).2 =
        (devGetPairingQrPayload
          { vendorId := 65524, productId := 32768, discriminator := 3840,
            setupPin := 20202021, qrCache := none, manualCache := none }).2) ∧
    (∀ q d, (none : Option String) = some q →
      (devGetPairingQrPayload
        { vendorId := 65524, productId := 32768, discriminator := d,
          setupPin := 20202021, qrCache := none, manualCache := none }).1 = q) ∧
    ((none : Option String) = none →
      devGetManualPairingCode
          { vendorId := 65524, productId := 32768, discriminator := 3840,
            setupPin := 20202021, qrCache := none, manualCache := none } =
        (get_manual_pairing_code 3840 20202021,
          { vendorId := 65524, productId := 32768, discriminator := 3840,
            setupPin := 20202021, qrCache := none,
            manualCache := some (get_manual_pairing_code 3840 20202021) })) ∧
    (devGetManualPairingCode
        (devGetManualPairingCode
          { vendorId := 65524, productId := 32768, discriminator := 3840,
            setupPin := 20202021, qrCache := none, manualCache := none }).2).1 =
      (devGetManualPairingCode
        { vendorId := 65524, productId := 32768, discriminator := 3840,
          setupPin := 20202021, qrCache := none, manualCache := none }).1 ∧
    (∀ q d, (none : Option String) = some q →
      (devGetManualPairingCode
        { vendorId := 65524, productId := 32768, discriminator := d,
          setupPin := 20202021, qrCache := none, manualCache := none }).1 = q) :=
  payload_cache_memoized
    { vendorId := 65524, productId := 32768, discriminator := 3840,
      setupPin := 20202021, qrCache := none, manualCache := none }

/-! ## InputHandler

Source: smartpanel_modules/input_handler.py.  The mutable instance is the
state record below; each method maps an input sample and the current
timestamp over the state.  Timestamps and durations are rationals standing
for the float values of time.time(); the truncation int() of a non-negative
float is the floor (pyInt keeps the toward-zero truncation for negatives).
Python `if self.enc_press_start:` is falsy both for None and for the float
0.0, which floatTruthy models. -/

def pyInt (q : ℚ) : ℤ := if 0 ≤ q then ⌊q⌋ else -⌊-q⌋

def floatTruthy : Option ℚ → Option ℚ
  | none => none
  | some t => if t = 0 then none else some t

structure InputState where
  steps : ℤ
  buttonStates : List (Nat × Bool)
  encPressStart : Option ℚ
  encLastState : Bool
  longPressThreshold : ℚ
  lastEncTime : ℚ
  encVelocity : ℚ
  emergencyResetStart : Option ℚ
  buttonPins : List Nat
  emergencyResetButtons : List Nat
  emergencyResetDuration : ℚ

/-- InputHandler.get_encoder_delta (lines 72-85). -/
def get_encoder_delta (now : ℚ) (s : InputState) : ℤ × InputState :=
  let delta := s.steps
  if delta ≠ 0 then
    if now - s.lastEncTime > 0 then
      (delta,
        { s with steps := 0, encVelocity := (delta.natAbs : ℚ) / (now - s.lastEncTime),
                 lastEncTime := now })
    else
      (delta, { s with steps := 0, lastEncTime := now })
  else
    (delta, { s with steps := 0 })

/-- InputHandler.get_encoder_button_state (lines 87-122). -/
def get_encoder_button_state (isPressed : Bool) (now : ℚ) (s : InputState) :
    String × InputState :=
  if isPressed && !s.encLastState then
    ("pressed", { s with encPressStart := some now, encLastState := true })
  else if !isPressed && s.encLastState then
    match floatTruthy s.encPressStart with
    | some t0 =>
      if now - t0 ≥ s.longPressThreshold then
        ("long_press", { s with encLastState := false, encPressStart := none })
      else
        ("short_press", { s with encLastState := false, encPressStart := none })
    | none => ("none", { s with encLastState := false })
  else if isPressed && s.encLastState then
    match floatTruthy s.encPressStart with
    | some t0 =>
      if now - t0 ≥ s.longPressThreshold then
        ("long_press", { s with encPressStart := none })
      else
        ("none", s)
    | none => ("none", s)
  else
    ("none", s)

/-- The all() / any() membership test of check_emergency_reset (lines
130-133); the tick input is the list of pins whose buttons are currently
held down. -/
def allPressedCheck (s : InputState) (pressedPins : List Nat) : Bool :=
  s.emergencyResetButtons.all
    (fun pin => s.buttonPins.any (fun b => b == pin && pressedPins.contains b))

/-- InputHandler.check_emergency_reset (lines 124-154). -/
def check_emergency_reset (pressedPins : List Nat) (now : ℚ) (s : InputState) :
    (String × ℤ) × InputState :=
  if allPressedCheck s pressedPins then
    let start := s.emergencyResetStart.getD now
    let elapsed := now - start
    let progress : ℤ := min 100 (pyInt (elapsed / s.emergencyResetDuration * 100))
    if elapsed ≥ s.emergencyResetDuration then
      (("triggered", 100), { s with emergencyResetStart := some start })
    else
      (("active", progress), { s with emergencyResetStart := some start })
  else
    (("none", 0), { s with emergencyResetStart := none })

/-- InputHandler.reset (lines 167-173): the button_states dict holds exactly
the configured pins, so setting every configured pin False is the map
below. -/
def reset (s : InputState) : InputState :=
  { s with steps := 0,
           buttonStates := s.buttonStates.map (fun pb => (pb.1, false)),
           encPressStart := none,
           encLastState := false }

/-- One get_encoder_button_state call per tick over a sequence of
(timestamp, encoder-button-level) samples. -/
def runEncoderButton : InputState → List (ℚ × Bool) → InputState × List String
  | s, [] => (s, [])
  | s, (t, pr) :: rest =>
    let r := get_encoder_button_state pr t s
    let rr := runEncoderButton r.2 rest
    (rr.1, r.1 :: rr.2)

/-- One check_emergency_reset call per tick over a sequence of
(timestamp, held-pins) samples. -/
def runEmergency : InputState → List (ℚ × List Nat) → InputState × List (String × ℤ)
  | s, [] => (s, [])
  | s, (t, pins) :: rest =>
    let r := check_emergency_reset pins t s
    let rr := runEmergency r.2 rest
    (rr.1, r.1 :: rr.2)

def pressTicks (ts : List ℚ) : List (ℚ × Bool) := ts.map (fun t => (t, true))

/-- A complete physical press-release cycle as seen by the poll loop: the
down edge at t0, held samples at ts, released at tr. -/
def pressCycle (t0 : ℚ) (ts : List ℚ) (tr : ℚ) : List (ℚ × Bool) :=
  (t0, true) :: (pressTicks ts ++ [(tr, false)])

/-! Facts about runs of get_encoder_button_state. -/

theorem pressTicks_append (xs ys : List ℚ) :
    pressTicks (xs ++ ys) = pressTicks xs ++ pressTicks ys := by
  simp [pressTicks]

theorem runEncoderButton_append (s : InputState) (xs ys : List (ℚ × Bool)) :
    runEncoderButton s (xs ++ ys) =
      ((runEncoderButton (runEncoderButton s xs).1 ys).1,
        (runEncoderButton s xs).2 ++ (runEncoderButton (runEncoderButton s xs).1 ys).2) := by
  induction xs generalizing s with
  | nil => simp [runEncoderButton]
  | cons x rest ih =>
    obtain ⟨t, pr⟩ := x
    simp only [List.cons_append, runEncoderButton, List.append_eq]
    rw [ih]

/-- Held samples while the long press has already been emitted (pressStart
cleared, or a pressStart that Python treats as falsy) produce no events. -/
theorem runEnc_held_latched (s : InputState) (ts : List ℚ)
    (hlast : s.encLastState = true) (hstart : floatTruthy s.encPressStart = none) :
    runEncoderButton s (pressTicks ts) = (s, List.replicate ts.length "none") := by
  have hstep : ∀ t, get_encoder_button_state true t s = ("none", s) := by
    intro t
    simp [get_encoder_button_state, hlast, hstart]
  induction ts with
  | nil => simp [pressTicks, runEncoderButton]
  | cons t rest ih =>
    simp only [pressTicks, List.map_cons, runEncoderButton, hstep]
    simp only [pressTicks] at ih
    rw [ih]
    simp [List.replicate_succ]

/-- Held samples all strictly below the threshold produce no events and
leave the state unchanged. -/
theorem runEnc_held_below (s : InputState) (t0 : ℚ) (ts : List ℚ)
    (hlast : s.encLastState = true) (hstart : s.encPressStart = some t0) (ht0 : t0 ≠ 0)
    (hbelow : ∀ t ∈ ts, t - t0 < s.longPressThreshold) :
    runEncoderButton s (pressTicks ts) = (s, List.replicate ts.length "none") := by
  induction ts with
  | nil => simp [pressTicks, runEncoderButton]
  | cons t rest ih =>
    have hstep : get_encoder_button_state true t s = ("none", s) := by
      have hlt := hbelow t (by simp)
      simp [get_encoder_button_state, hlast, hstart, floatTruthy, ht0, not_le.mpr hlt]
    simp only [pressTicks, List.map_cons, runEncoderButton, hstep]
    simp only [pressTicks] at ih
    rw [ih (fun x hx => hbelow x (by simp [hx]))]
    simp [List.replicate_succ]

/-- Held samples where tick c is the first to reach the threshold: exactly
one long_press, emitted at c, after which pressStart is cleared. -/
theorem runEnc_held_cross (s : InputState) (t0 : ℚ) (a : List ℚ) (c : ℚ) (bs : List ℚ)
    (hlast : s.encLastState = true) (hstart : s.encPressStart = some t0) (ht0 : t0 ≠ 0)
    (ha : ∀ t ∈ a, t - t0 < s.longPressThreshold) (hc : s.longPressThreshold ≤ c - t0) :
    runEncoderButton s (pressTicks (a ++ c :: bs)) =
      ({ s with encPressStart := none },
        List.replicate a.length "none" ++
          "long_press" :: List.replicate bs.length "none") := by
  have h1 := runEnc_held_below s t0 a hlast hstart ht0 ha
  have h2 : get_encoder_button_state true c s =
      ("long_press", { s with encPressStart := none }) := by
    simp [get_encoder_button_state, hlast, hstart, floatTruthy, ht0, hc]
  have h3 := runEnc_held_latched { s with encPressStart := none } bs (by simp [hlast])
    (by simp [floatTruthy])
  rw [pressTicks_append, runEncoderButton_append, h1]
  simp only [pressTicks, List.map_cons, runEncoderButton, h2]
  simp only [pressTicks] at h3
  rw [h3]

/-- A cycle whose hold and release both stay below the threshold: pressed at
the down edge, no events while held, short_press at release. -/
theorem encCycle_short (s : InputState) (t0 tr : ℚ) (ts : List ℚ)
    (hlast : s.encLastState = false) (ht0 : 0 < t0)
    (hall : ∀ t ∈ ts, t - t0 < s.longPressThreshold)
    (hr : tr - t0 < s.longPressThreshold) :
    (runEncoderButton s (pressCycle t0 ts tr)).2 =
      "pressed" :: (List.replicate ts.length "none" ++ ["short_press"]) := by
  have h0 : get_encoder_button_state true t0 s =
      ("pressed", { s with encPressStart := some t0, encLastState := true }) := by
    simp [get_encoder_button_state, hlast]
  have h1 := runEnc_held_below { s with encPressStart := some t0, encLastState := true }
    t0 ts (by simp) (by simp) (ne_of_gt ht0) (by simpa using hall)
  have h2 : (get_encoder_button_state false tr
      { s with encPressStart := some t0, encLastState := true }).1 = "short_press" := by
    simp [get_encoder_button_state, floatTruthy, ne_of_gt ht0, not_le.mpr hr]
  unfold pressCycle
  simp only [runEncoderButton, h0, runEncoderButton_append, h1]
  simp [runEncoderButton, h2]

/-- A cycle held below the threshold but released at or past it: the
long_press is emitted at the release tick. -/
theorem encCycle_longRelease (s : InputState) (t0 tr : ℚ) (ts : List ℚ)
    (hlast : s.encLastState = false) (ht0 : 0 < t0)
    (hall : ∀ t ∈ ts, t - t0 < s.longPressThreshold)
    (hr : s.longPressThreshold ≤ tr - t0) :
    (runEncoderButton s (pressCycle t0 ts tr)).2 =
      "pressed" :: (List.replicate ts.length "none" ++ ["long_press"]) := by
  have h0 : get_encoder_button_state true t0 s =
      ("pressed", { s with encPressStart := some t0, encLastState := true }) := by
    simp [get_encoder_button_state, hlast]
  have h1 := runEnc_held_below { s with encPressStart := some t0, encLastState := true }
    t0 ts (by simp) (by simp) (ne_of_gt ht0) (by simpa using hall)
  have h2 : (get_encoder_button_state false tr
      { s with encPressStart := some t0, encLastState := true }).1 = "long_press" := by
    simp [get_encoder_button_state, floatTruthy, ne_of_gt ht0, hr]
  unfold pressCycle
  simp only [runEncoderButton, h0, runEncoderButton_append, h1]
  simp [runEncoderButton, h2]

/-- A cycle in which held tick c is the first to reach the threshold: one
long_press at c, nothing afterwards, and the release emits nothing. -/
theorem encCycle_longHeld (s : InputState) (t0 tr : ℚ) (a : List ℚ) (c : ℚ) (bs : List ℚ)
    (hlast : s.encLastState = false) (ht0 : 0 < t0)
    (ha : ∀ t ∈ a, t - t0 < s.longPressThreshold)
    (hc : s.longPressThreshold ≤ c - t0) :
    (runEncoderButton s (pressCycle t0 (a ++ c :: bs) tr)).2 =
      "pressed" :: (List.replicate a.length "none" ++
        "long_press" :: (List.replicate bs.length "none" ++ ["none"])) := by
  have h0 : get_encoder_button_state true t0 s =
      ("pressed", { s with encPressStart := some t0, encLastState := true }) := by
    simp [get_encoder_button_state, hlast]
  have h1 := runEnc_held_cross { s with encPressStart := some t0, encLastState := true }
    t0 a c bs (by simp) (by simp) (ne_of_gt ht0) (by simpa using ha) (by simpa using hc)
  have h2 : (get_encoder_button_state false tr
      { { s with encPressStart := some t0, encLastState := true } with
        encPressStart := none }).1 = "none" := by
    simp [get_encoder_button_state, floatTruthy]
  unfold pressCycle
  simp only [runEncoderButton, h0, runEncoderButton_append, h1]
  simp [runEncoderButton, h2]

/-- Claim C5: in a complete press-release cycle starting at a positive clock
value, a press whose samples and release stay below longPressThreshold
yields pressed at the down edge, no events while held, and exactly one
short_press at release (and no long_press); a press reaching the threshold
yields exactly one long_press — at the release tick if the threshold was
first crossed there, otherwise at the first held tick at or past the
threshold — and no short_press, with nothing further emitted while still
held or at the release. -/
theorem encoder_press_gestures (s : InputState) (t0 tr : ℚ) (ts : List ℚ)
    (hlast : s.encLastState = false) (ht0 : 0 < t0) :
    ((∀ t ∈ ts, t - t0 < s.longPressThreshold) → tr - t0 < s.longPressThreshold →
      (runEncoderButton s (pressCycle t0 ts tr)).2 =
        "pressed" :: (List.replicate ts.length "none" ++ ["short_press"])) ∧
    ((∀ t ∈ ts, t - t0 < s.longPressThreshold) → s.longPressThreshold ≤ tr - t0 →
      (runEncoderButton s (pressCycle t0 ts tr)).2 =
        "pressed" :: (List.replicate ts.length "none" ++ ["long_press"])) ∧
    (∀ a c bs, ts = a ++ c :: bs →
      (∀ t ∈ a, t - t0 < s.longPressThreshold) → s.longPressThreshold ≤ c - t0 →
      (runEncoderButton s (pressCycle t0 ts tr)).2 =
        "pressed" :: (List.replicate a.length "none" ++
          "long_press" :: (List.replicate bs.length "none" ++ ["none"]))) :=
  ⟨fun hall hr => encCycle_short s t0 tr ts hlast ht0 hall hr,
   fun hall hr => encCycle_longRelease s t0 tr ts hlast ht0 hall hr,
   fun a c bs hts ha hc => by
     rw [hts]
     exact encCycle_longHeld s t0 tr a c bs hlast ht0 ha hc⟩

/-- Idle input state used to instantiate the gesture witnesses. -/
def idleEncState : InputState :=
  { steps := 0, buttonStates := [], encPressStart := none, encLastState := false,
    longPressThreshold := 1/2, lastEncTime := 0, encVelocity := 0,
    emergencyResetStart := none, buttonPins := [], emergencyResetButtons := [],
    emergencyResetDuration := 10 }

/-- Witness for C5: threshold 1/2, down at t=1, held at t=5/4, released at
t=2. -/
theorem encoder_press_gestures_witness :
    idleEncState.encLastState = false ∧ (0 : ℚ) < 1 ∧
    (((∀ t ∈ [(5 : ℚ)/4], t - 1 < idleEncState.longPressThreshold) →
        (2 : ℚ) - 1 < idleEncState.longPressThreshold →
        (runEncoderButton idleEncState (pressCycle 1 [(5 : ℚ)/4] 2)).2 =
          "pressed" :: (List.replicate ([(5 : ℚ)/4]).length "none" ++ ["short_press"])) ∧
      ((∀ t ∈ [(5 : ℚ)/4], t - 1 < idleEncState.longPressThreshold) →
        idleEncState.longPressThreshold ≤ (2 : ℚ) - 1 →
        (runEncoderButton idleEncState (pressCycle 1 [(5 : ℚ)/4] 2)).2 =
          "pressed" :: (List.replicate ([(5 : ℚ)/4]).length "none" ++ ["long_press"])) ∧
      (∀ a c bs, [(5 : ℚ)/4] = a ++ c :: bs →
        (∀ t ∈ a, t - 1 < idleEncState.longPressThreshold) →
        idleEncState.longPressThreshold ≤ c - 1 →
        (runEncoderButton idleEncState (pressCycle 1 [(5 : ℚ)/4] 2)).2 =
          "pressed" :: (List.replicate a.length "none" ++
            "long_press" :: (List.replicate bs.length "none" ++ ["none"])))) :=
  ⟨rfl, by norm_num, encoder_press_gestures idleEncState 1 2 [(5 : ℚ)/4] rfl (by norm_num)⟩

/-- Any predicate either holds on the whole list or fails first at some
position. -/
theorem list_split_first_fail (p : ℚ → Prop) (ts : List ℚ) :
    (∀ t ∈ ts, p t) ∨
      ∃ a c bs, ts = a ++ c :: bs ∧ (∀ t ∈ a, p t) ∧ ¬ p c := by
  induction ts with
  | nil => left; simp
  | cons t rest ih =>
    by_cases hp : p t
    · rcases ih with h | ⟨a, c, bs, heq, ha, hc⟩
      · left
        intro x hx
        rcases List.mem_cons.mp hx with rfl | hx
        · exact hp
        · exact h x hx
      · right
        refine ⟨t :: a, c, bs, by rw [heq]; rfl, ?_, hc⟩
        intro x hx
        rcases List.mem_cons.mp hx with rfl | hx
        · exact hp
        · exact ha x hx
    · right
      exact ⟨[], t, rest, rfl, by simp, hp⟩

/-- Claim C6: every complete press-release cycle (down edge observed at a
positive clock value, release observed later) emits pressed exactly once,
at the down-edge tick, and exactly one of short_press / long_press across
the whole cycle — never both, never neither. -/
theorem encoder_press_cycle_exclusive (s : InputState) (t0 tr : ℚ) (ts : List ℚ)
    (hlast : s.encLastState = false) (ht0 : 0 < t0) :
    ∃ rest, (runEncoderButton s (pressCycle t0 ts tr)).2 = "pressed" :: rest ∧
      rest.count "pressed" = 0 ∧
      rest.count "short_press" + rest.count "long_press" = 1 := by
  rcases list_split_first_fail (fun t => t - t0 < s.longPressThreshold) ts with
    hall | ⟨a, c, bs, rfl, ha, hc⟩
  · by_cases hr : tr - t0 < s.longPressThreshold
    · refine ⟨_, encCycle_short s t0 tr ts hlast ht0 hall hr, ?_, ?_⟩ <;>
        simp [List.count_append, List.count_replicate, List.count_cons]
    · refine ⟨_, encCycle_longRelease s t0 tr ts hlast ht0 hall (not_lt.mp hr), ?_, ?_⟩ <;>
        simp [List.count_append, List.count_replicate, List.count_cons]
  · refine ⟨_, encCycle_longHeld s t0 tr a c bs hlast ht0 ha (not_lt.mp hc), ?_, ?_⟩ <;>
      simp [List.count_append, List.count_replicate, List.count_cons]

/-- Witness for C6: threshold 1/2, down at t=1, one held sample at t=3/2,
released at t=2. -/
theorem encoder_press_cycle_exclusive_witness :
    idleEncState.encLastState = false ∧ (0 : ℚ) < 1 ∧
    (∃ rest, (runEncoderButton idleEncState (pressCycle 1 [(3 : ℚ)/2] 2)).2 =
        "pressed" :: rest ∧
      rest.count "pressed" = 0 ∧
      rest.count "short_press" + rest.count "long_press" = 1) :=
  ⟨rfl, by norm_num, encoder_press_cycle_exclusive idleEncState 1 2 [(3 : ℚ)/2] rfl (by norm_num)⟩

/-! Facts about runs of check_emergency_reset. -/

theorem check_emergency_not_pressed (s : InputState) (now : ℚ) (pins : List Nat)
    (h : allPressedCheck s pins = false) :
    check_emergency_reset pins now s =
      (("none", 0), { s with emergencyResetStart := none }) := by
  simp [check_emergency_reset, h]

theorem check_emergency_armed (s : InputState) (now t0 : ℚ) (pins : List Nat)
    (h : allPressedCheck s pins = true) (hs : s.emergencyResetStart = some t0) :
    check_emergency_reset pins now s =
      ((if now - t0 ≥ s.emergencyResetDuration then ("triggered", 100)
        else ("active", min 100 (pyInt ((now - t0) / s.emergencyResetDuration * 100)))), s) := by
  obtain ⟨f1, f2, f3, f4, f5, f6, f7, f8, f9, f10, f11⟩ := s
  simp only at hs
  subst hs
  simp only [check_emergency_reset, h, if_true, Option.getD_some, ge_iff_le]
  split <;> rfl

theorem check_emergency_first (s : InputState) (now : ℚ) (pins : List Nat)
    (h : allPressedCheck s pins = true) (hs : s.emergencyResetStart = none)
    (hdur : 0 < s.emergencyResetDuration) :
    check_emergency_reset pins now s =
      (("active", 0), { s with emergencyResetStart := some now }) := by
  simp only [check_emergency_reset, h, if_true, hs, Option.getD_none]
  rw [if_neg (by simp only [sub_self]; exact not_le.mpr hdur)]
  simp [pyInt]

/-- While armed at t0 and all required channels stay held, every tick
reports triggered when the elapsed time has reached the duration, and the
clamped progress otherwise; the arm timestamp never changes. -/
theorem runEmergency_armed (s : InputState) (t0 : ℚ) (ts : List (ℚ × List Nat))
    (hs : s.emergencyResetStart = some t0)
    (hp : ∀ tick ∈ ts, allPressedCheck s tick.2 = true) :
    runEmergency s ts =
      (s, ts.map (fun tick =>
        if tick.1 - t0 ≥ s.emergencyResetDuration then ("triggered", 100)
        else ("active", min 100 (pyInt ((tick.1 - t0) / s.emergencyResetDuration * 100))))) := by
  induction ts with
  | nil => simp [runEmergency]
  | cons tick rest ih =>
    obtain ⟨t, pins⟩ := tick
    have h1 := check_emergency_armed s t t0 pins (hp ⟨t, pins⟩ (by simp)) hs
    simp only [runEmergency, h1, List.map_cons]
    rw [ih (fun x hx => hp x (by simp [hx]))]

/-- State used to instantiate the emergency-reset scenarios: duration 10 s,
required combo pins 5 and 6. -/
def emergencyCexState : InputState :=
  { steps := 0, buttonStates := [(5, false), (6, false)], encPressStart := none,
    encLastState := false, longPressThreshold := 1/2, lastEncTime := 0, encVelocity := 0,
    emergencyResetStart := none, buttonPins := [5, 6], emergencyResetButtons := [5, 6],
    emergencyResetDuration := 10 }

/-- Counterexample for C3 as stated: check_emergency_reset never clears the
arm timestamp after triggering, so an uninterrupted hold reports
(triggered, 100) at every tick once the duration has elapsed — here twice,
at t = 10 and t = 11 of a hold started at t = 0 with duration 10. -/
theorem emergency_trigger_twice_cex :
    (runEmergency emergencyCexState
        [((0 : ℚ), [5, 6]), ((10 : ℚ), [5, 6]), ((11 : ℚ), [5, 6])]).2 =
      [("active", 0), ("triggered", 100), ("triggered", 100)] ∧
    (runEmergency emergencyCexState
        [((0 : ℚ), [5, 6]), ((10 : ℚ), [5, 6]), ((11 : ℚ), [5, 6])]).2.count
      ("triggered", 100) = 2 := by
  have h1 := check_emergency_first emergencyCexState 0 [5, 6] (by decide) rfl
    (by norm_num [emergencyCexState])
  have h2 := runEmergency_armed
    { emergencyCexState with emergencyResetStart := some 0 } 0
    [((10 : ℚ), [5, 6]), ((11 : ℚ), [5, 6])] rfl (by decide)
  have hlist : (runEmergency emergencyCexState
      [((0 : ℚ), [5, 6]), ((10 : ℚ), [5, 6]), ((11 : ℚ), [5, 6])]).2 =
      [("active", 0), ("triggered", 100), ("triggered", 100)] := by
    simp only [runEmergency, h1, h2, List.map_cons, List.map_nil]
    norm_num [emergencyCexState, check_emergency_reset, allPressedCheck, pyInt]
  exact ⟨hlist, by rw [hlist]; rfl⟩

/-- Claim C3 (amended): starting idle, a hold of the full combo that begins
at t0 and is never interrupted reports (active, 0) at the arming tick and
then, at every later tick, (triggered, 100) as soon as the elapsed time has
reached the duration — at the first such tick and again at every subsequent
tick of the hold (the monitor does not reset itself after triggering; in the
deployed loop the caller wipes the configuration and restarts the process on
the first report). -/
theorem emergency_trigger_reports (s : InputState) (t0 : ℚ) (p0 : List Nat)
    (ts : List (ℚ × List Nat))
    (hidle : s.emergencyResetStart = none) (hdur : 0 < s.emergencyResetDuration)
    (h0 : allPressedCheck s p0 = true)
    (hts : ∀ tick ∈ ts, allPressedCheck s tick.2 = true) :
    (runEmergency s ((t0, p0) :: ts)).2 =
      ("active", 0) :: ts.map (fun tick =>
        if tick.1 - t0 ≥ s.emergencyResetDuration then ("triggered", 100)
        else ("active", min 100 (pyInt ((tick.1 - t0) / s.emergencyResetDuration * 100)))) := by
  have h1 := check_emergency_first s t0 p0 h0 hidle hdur
  have h2 := runEmergency_armed { s with emergencyResetStart := some t0 } t0 ts rfl
    (fun x hx => hts x hx)
  simp only [runEmergency, h1, h2]

/-- Witness for C3 (amended): hold pins 5 and 6 from t = 0; ticks at t = 10
and t = 11 with duration 10. -/
theorem emergency_trigger_reports_witness :
    emergencyCexState.emergencyResetStart = none ∧
    (0 : ℚ) < emergencyCexState.emergencyResetDuration ∧
    allPressedCheck emergencyCexState [5, 6] = true ∧
    (∀ tick ∈ [((10 : ℚ), [5, 6]), ((11 : ℚ), [5, 6])],
      allPressedCheck emergencyCexState tick.2 = true) ∧
    (runEmergency emergencyCexState
        (((0 : ℚ), [5, 6]) :: [((10 : ℚ), [5, 6]), ((11 : ℚ), [5, 6])])).2 =
      ("active", 0) :: [((10 : ℚ), [5, 6]), ((11 : ℚ), [5, 6])].map (fun tick =>
        if tick.1 - 0 ≥ emergencyCexState.emergencyResetDuration then ("triggered", 100)
        else ("active",
          min 100 (pyInt ((tick.1 - 0) / emergencyCexState.emergencyResetDuration * 100)))) :=
  ⟨rfl, by norm_num [emergencyCexState], by decide, by decide,
    emergency_trigger_reports emergencyCexState 0 [5, 6]
      [((10 : ℚ), [5, 6]), ((11 : ℚ), [5, 6])] rfl
      (by norm_num [emergencyCexState]) (by decide) (by decide)⟩

/-- Claim C7: a tick at which not all required channels are held reports
(none, 0) and discards the arm timestamp, and a following hold attempt
restarts from zero: if every tick of the new attempt stays below the
duration measured from its own first tick, triggered is never reported —
no credit is carried over from before the release. -/
theorem emergency_cancel_no_credit (s : InputState) (tc : ℚ) (pc : List Nat)
    (t1 : ℚ) (p1 : List Nat) (ts : List (ℚ × List Nat))
    (hc : allPressedCheck s pc = false)
    (h1 : allPressedCheck s p1 = true)
    (hts : ∀ tick ∈ ts, allPressedCheck s tick.2 = true)
    (hdur : 0 < s.emergencyResetDuration)
    (hshort : ∀ tick ∈ ts, tick.1 - t1 < s.emergencyResetDuration) :
    (check_emergency_reset pc tc s).1 = ("none", 0) ∧
    (check_emergency_reset pc tc s).2.emergencyResetStart = none ∧
    (runEmergency s ((tc, pc) :: (t1, p1) :: ts)).2 =
      ("none", 0) :: ("active", 0) :: ts.map (fun tick =>
        ("active", min 100 (pyInt ((tick.1 - t1) / s.emergencyResetDuration * 100)))) := by
  have hcan := check_emergency_not_pressed s tc pc hc
  refine ⟨by rw [hcan], by rw [hcan], ?_⟩
  have harm := check_emergency_first { s with emergencyResetStart := none } t1 p1 h1 rfl hdur
  have hrun := runEmergency_armed
    { { s with emergencyResetStart := none } with emergencyResetStart := some t1 } t1 ts rfl
    (fun x hx => hts x hx)
  simp only [runEmergency, hcan, harm, hrun]
  have hmap : ∀ tick ∈ ts,
      (if tick.1 - t1 ≥ s.emergencyResetDuration then (("triggered", 100) : String × ℤ)
        else ("active", min 100 (pyInt ((tick.1 - t1) / s.emergencyResetDuration * 100)))) =
        ("active", min 100 (pyInt ((tick.1 - t1) / s.emergencyResetDuration * 100))) :=
    fun x hx => if_neg (not_le.mpr (hshort x hx))
  rw [List.map_congr_left hmap]

/-- Witness for C7: release at t = 0 (pin 6 up), re-hold from t = 1, a tick
at t = 2 with duration 10. -/
theorem emergency_cancel_no_credit_witness :
    allPressedCheck emergencyCexState [5] = false ∧
    allPressedCheck emergencyCexState [5, 6] = true ∧
    (∀ tick ∈ [((2 : ℚ), [5, 6])], allPressedCheck emergencyCexState tick.2 = true) ∧
    (0 : ℚ) < emergencyCexState.emergencyResetDuration ∧
    (∀ tick ∈ [((2 : ℚ), [5, 6])],
      tick.1 - 1 < emergencyCexState.emergencyResetDuration) ∧
    ((check_emergency_reset [5] 0 emergencyCexState).1 = ("none", 0) ∧
      (check_emergency_reset [5] 0 emergencyCexState).2.emergencyResetStart = none ∧
      (runEmergency emergencyCexState
          (((0 : ℚ), [5]) :: ((1 : ℚ), [5, 6]) :: [((2 : ℚ), [5, 6])])).2 =
        ("none", 0) :: ("active", 0) :: [((2 : ℚ), [5, 6])].map (fun tick =>
          ("active",
            min 100 (pyInt ((tick.1 - 1) / emergencyCexState.emergencyResetDuration * 100))))) :=
  ⟨by decide, by decide, by decide, by norm_num [emergencyCexState],
    by norm_num [emergencyCexState],
    emergency_cancel_no_credit emergencyCexState 0 [5] 1 [5, 6] [((2 : ℚ), [5, 6])]
      (by decide) (by decide) (by decide) (by norm_num [emergencyCexState])
      (by norm_num [emergencyCexState])⟩

/-- Claim C8: get_encoder_delta returns the accumulated signed step count
and zeroes the counter (an immediately following call returns 0); on a
nonzero delta the stored velocity becomes abs(delta) divided by the time
since the last nonzero-delta read and the read timestamp advances (the
division is guarded by the code for a strictly positive elapsed time); a
zero delta leaves velocity and read timestamp unchanged. -/
theorem encoder_delta_drain (s : InputState) (now now2 : ℚ) :
    (get_encoder_delta now s).1 = s.steps ∧
    (get_encoder_delta now s).2.steps = 0 ∧
    (get_encoder_delta now2 (get_encoder_delta now s).2).1 = 0 ∧
    (s.steps = 0 →
      (get_encoder_delta now s).2.encVelocity = s.encVelocity ∧
      (get_encoder_delta now s).2.lastEncTime = s.lastEncTime) ∧
    (s.steps ≠ 0 → (get_encoder_delta now s).2.lastEncTime = now) ∧
    (s.steps ≠ 0 → 0 < now - s.lastEncTime →
      (get_encoder_delta now s).2.encVelocity =
        (s.steps.natAbs : ℚ) / (now - s.lastEncTime)) := by
  by_cases h : s.steps = 0
  · simp [get_encoder_delta, h]
  · by_cases h2 : now - s.lastEncTime > 0 <;> simp [get_encoder_delta, h, h2]

/-- State used to instantiate the encoder-delta witness: 3 accumulated
steps backwards, last read at t = 1, stored velocity 7. -/
def encDeltaWitnessState : InputState :=
  { steps := -3, buttonStates := [], encPressStart := none, encLastState := false,
    longPressThreshold := 1/2, lastEncTime := 1, encVelocity := 7,
    emergencyResetStart := none, buttonPins := [], emergencyResetButtons := [],
    emergencyResetDuration := 10 }

/-- Witness for C8: read at t = 3, then again at t = 4. -/
theorem encoder_delta_drain_witness :
    (get_encoder_delta 3 encDeltaWitnessState).1 = encDeltaWitnessState.steps ∧
    (get_encoder_delta 3 encDeltaWitnessState).2.steps = 0 ∧
    (get_encoder_delta 4 (get_encoder_delta 3 encDeltaWitnessState).2).1 = 0 ∧
    (encDeltaWitnessState.steps = 0 →
      (get_encoder_delta 3 encDeltaWitnessState).2.encVelocity =
        encDeltaWitnessState.encVelocity ∧
      (get_encoder_delta 3 encDeltaWitnessState).2.lastEncTime =
        encDeltaWitnessState.lastEncTime) ∧
    (encDeltaWitnessState.steps ≠ 0 →
      (get_encoder_delta 3 encDeltaWitnessState).2.lastEncTime = 3) ∧
    (encDeltaWitnessState.steps ≠ 0 → 0 < (3 : ℚ) - encDeltaWitnessState.lastEncTime →
      (get_encoder_delta 3 encDeltaWitnessState).2.encVelocity =
        ((encDeltaWitnessState.steps.natAbs : ℚ)) / ((3 : ℚ) - encDeltaWitnessState.lastEncTime)) :=
  encoder_delta_drain encDeltaWitnessState 3 4

/-- Claim C10: reset zeroes the step counter, clears every configured
button's pending-edge flag, clears the encoder press-tracking state, and
leaves the emergency arm timestamp, the velocity, the last encoder-read
timestamp and all configuration unchanged; consequently a
check_emergency_reset call after reset reports exactly what it would have
reported without the reset — an emergency hold in progress keeps its
accumulated progress. -/
theorem reset_frame (s : InputState) (now : ℚ) (pins : List Nat) :
    (reset s).steps = 0 ∧
    (reset s).buttonStates = s.buttonStates.map (fun pb => (pb.1, false)) ∧
    (reset s).encPressStart = none ∧
    (reset s).encLastState = false ∧
    (reset s).emergencyResetStart = s.emergencyResetStart ∧
    (reset s).encVelocity = s.encVelocity ∧
    (reset s).lastEncTime = s.lastEncTime ∧
    (reset s).longPressThreshold = s.longPressThreshold ∧
    (reset s).emergencyResetDuration = s.emergencyResetDuration ∧
    check_emergency_reset pins now (reset s) =
      ((check_emergency_reset pins now s).1,
        reset ((check_emergency_reset pins now s).2)) := by
  refine ⟨rfl, rfl, rfl, rfl, rfl, rfl, rfl, rfl, rfl, ?_⟩
  obtain ⟨f1, f2, f3, f4, f5, f6, f7, f8, f9, f10, f11⟩ := s
  simp only [check_emergency_reset, reset, allPressedCheck]
  split
  · split <;> rfl
  · rfl
